import Mathlib

/-!
Shallow embedding of the `uniqvideo` repository (files `video_unique.py`,
`bot.py`, `1.py`) and proofs about its specification claims.

Conventions of the embedding:
* Python `int` is modelled as `ℤ` (or `ℕ` where the source value is
  manifestly nonnegative), Python `float` arithmetic as exact `ℚ`.
* `int(x)` (truncation toward zero) is `pyint`.
* `numpy.random.uniform(lo, hi)` is modelled by `sample r u` for a unit
  draw `u` with `0 ≤ u < 1`; `numpy.random.randint(lo, hi)` by an
  arbitrary integer in `[lo, hi)`.
* Effectful parts (encoding, the filesystem, the asyncio semaphore) are
  modelled by explicit state passing / oracles / a step relation.
-/

namespace UniqVideo

/-- Truncation toward zero, the semantics of Python `int(x)` on a number. -/
def pyint (q : ℚ) : ℤ := if q < 0 then ⌈q⌉ else ⌊q⌋

/-- Embedding of `_fit_within_max_dim` (video_unique.py lines 10-20):
returns new width/height and the scale factor so that the longest side
does not exceed `maxDim`; `maxDim ≤ 0` disables the cap. -/
def fit_within_max_dim (width height maxDim : ℤ) : ℤ × ℤ × ℚ :=
  if maxDim ≤ 0 then (width, height, 1)
  else
    let maxSide := max width height
    if maxSide ≤ maxDim then (width, height, 1)
    else
      let scale : ℚ := (maxDim : ℚ) / (maxSide : ℚ)
      (pyint ((width : ℚ) * scale), pyint ((height : ℚ) * scale), scale)

/-- Decimal digit list of a natural number, as rendered by Python's
`str` / f-string formatting (most significant digit first). -/
def natRepr (n : ℕ) : List Char :=
  if n < 10 then [Nat.digitChar n]
  else natRepr (n / 10) ++ [Nat.digitChar (n % 10)]
termination_by n
decreasing_by exact Nat.div_lt_self (by omega) (by omega)

/-- Decimal string of a natural number (Python `str(n)` for `n ≥ 0`). -/
def natToString (n : ℕ) : String := ⟨natRepr n⟩

/-- Embedding of `os.path.join(dir, name)` for the shapes arising in this
program (a non-absolute `name`). -/
def pyJoin (dir name : String) : String :=
  if dir.endsWith "/" ∨ dir = "" then dir ++ name else dir ++ "/" ++ name

/-- Output path produced by `_unique_once` (video_unique.py lines 175-178):
`os.path.join(output_dir, f"{base_name}_{index}.mp4")` where `base_name`
is the source basename without extension. -/
def unique_once_path (base_name output_dir : String) (index : ℕ) : String :=
  pyJoin output_dir (base_name ++ "_" ++ natToString index ++ ".mp4")

/-- Inclusive-exclusive pair of bounds for one random parameter. -/
structure Rng where
  lo : ℚ
  hi : ℚ
deriving DecidableEq

/-- The six parameter ranges of one strength profile
(video_unique.py `_strength_params`). -/
structure Profile where
  resize : Rng
  speed : Rng
  rotate : Rng
  density : Rng
  opacity : Rng
  bitrate : Rng
deriving DecidableEq

/-- Ranges of the `"low"` strength profile (video_unique.py lines 25-33). -/
def lowProfile : Profile :=
  ⟨⟨0.95, 1.05⟩, ⟨0.98, 1.02⟩, ⟨-0.5, 0.5⟩, ⟨0.4, 0.6⟩, ⟨0.06, 0.12⟩, ⟨0.9, 1.1⟩⟩

/-- Ranges of the `"high"` strength profile (video_unique.py lines 34-42). -/
def highProfile : Profile :=
  ⟨⟨0.6, 1.4⟩, ⟨0.9, 1.1⟩, ⟨-4.0, 4.0⟩, ⟨0.6, 0.8⟩, ⟨0.15, 0.25⟩, ⟨0.7, 1.3⟩⟩

/-- Ranges of the `"medium"` (default) strength profile
(video_unique.py lines 43-51). -/
def mediumProfile : Profile :=
  ⟨⟨0.7, 1.3⟩, ⟨0.92, 1.08⟩, ⟨-2.0, 2.0⟩, ⟨0.5, 0.7⟩, ⟨0.10, 0.18⟩, ⟨0.8, 1.2⟩⟩

/-- ASCII lowercasing of a string, the semantics of Python `str.lower()`
on the ASCII names used here. -/
def pyLower (s : String) : String := ⟨s.data.map Char.toLower⟩

/-- Embedding of `_strength_params` (video_unique.py lines 23-51):
`s = (strength or "medium").lower()`, then dispatch on `"low"` / `"high"`
with `"medium"` as the fallback. -/
def strength_params (strength : String) : Profile :=
  let s := pyLower (if strength = "" then "medium" else strength)
  if s = "low" then lowProfile
  else if s = "high" then highProfile
  else mediumProfile

/-- Value drawn by `numpy.random.uniform(r.lo, r.hi)` when the underlying
unit draw is `u ∈ [0, 1)`: `lo + u * (hi - lo)`. -/
def sample (r : Rng) (u : ℚ) : ℚ := r.lo + u * (r.hi - r.lo)

/-- Membership of a value in a range, bounds inclusive. -/
def inRng (r : Rng) (x : ℚ) : Prop := r.lo ≤ x ∧ x ≤ r.hi

/-- Loop indices `1 .. copies` at which `unique_video` invokes
`_unique_once` (the Python loop `for i in range(1, copies + 1)`,
video_unique.py lines 221-224). -/
def unique_video_calls (copies : ℤ) : List ℕ :=
  (List.range copies.toNat).map (fun i => i + 1)

/-- Paths returned by `unique_video` (video_unique.py lines 197-231),
assuming no per-copy failure: one `_unique_once` output path per index. -/
def unique_video (base_name output_dir : String) (copies : ℤ) : List String :=
  (unique_video_calls copies).map (unique_once_path base_name output_dir)

/-! ### Decimal rendering: evaluation and injectivity -/

theorem natRepr_of_lt {n : ℕ} (h : n < 10) : natRepr n = [Nat.digitChar n] := by
  rw [natRepr]; simp [h]

theorem natRepr_of_ge {n : ℕ} (h : 10 ≤ n) :
    natRepr n = natRepr (n / 10) ++ [Nat.digitChar (n % 10)] := by
  rw [natRepr]; simp [Nat.not_lt.2 h]

theorem natRepr_ne_nil (n : ℕ) : natRepr n ≠ [] := by
  rcases Nat.lt_or_ge n 10 with h | h
  · rw [natRepr_of_lt h]; simp
  · rw [natRepr_of_ge h]; simp

theorem digitChar_injOn :
    ∀ a, a < 10 → ∀ b, b < 10 → Nat.digitChar a = Nat.digitChar b → a = b := by decide

theorem natRepr_injective : Function.Injective natRepr := by
  intro m
  induction m using Nat.strong_induction_on with
  | _ m ih =>
    intro n h
    rcases Nat.lt_or_ge m 10 with hm | hm <;> rcases Nat.lt_or_ge n 10 with hn | hn
    · rw [natRepr_of_lt hm, natRepr_of_lt hn] at h
      exact digitChar_injOn m hm n hn (List.cons.injEq .. ▸ h).1
    · rw [natRepr_of_lt hm, natRepr_of_ge hn] at h
      have hl := congrArg List.length h
      simp at hl
      exact absurd hl (natRepr_ne_nil _)
    · rw [natRepr_of_ge hm, natRepr_of_lt hn] at h
      have hl := congrArg List.length h
      simp at hl
      exact absurd hl (natRepr_ne_nil _)
    · rw [natRepr_of_ge hm, natRepr_of_ge hn] at h
      obtain ⟨h1, h2⟩ := List.append_inj' h rfl
      have hdiv : m / 10 = n / 10 :=
        ih (m / 10) (Nat.div_lt_self (by omega) (by omega)) h1
      have hmod : m % 10 = n % 10 :=
        digitChar_injOn (m % 10) (Nat.mod_lt _ (by omega)) (n % 10)
          (Nat.mod_lt _ (by omega)) (List.cons.injEq .. ▸ h2).1
      omega

theorem natToString_injective : Function.Injective natToString := by
  intro a b h
  exact natRepr_injective (congrArg String.data h)

/-! ### String cancellation helpers -/

theorem string_left_cancel {a b c : String} (h : a ++ b = a ++ c) : b = c := by
  have hd := congrArg String.data h
  simp [String.data_append] at hd
  exact String.ext hd

theorem string_right_cancel {a b c : String} (h : a ++ c = b ++ c) : a = b := by
  have hd := congrArg String.data h
  simp [String.data_append] at hd
  exact String.ext hd

theorem unique_once_path_injective (base_name output_dir : String) :
    Function.Injective (unique_once_path base_name output_dir) := by
  intro i j h
  unfold unique_once_path pyJoin at h
  have hname : base_name ++ "_" ++ natToString i ++ ".mp4"
      = base_name ++ "_" ++ natToString j ++ ".mp4" := by
    by_cases hc : output_dir.endsWith "/" ∨ output_dir = ""
    · rw [if_pos hc, if_pos hc] at h
      exact string_left_cancel h
    · rw [if_neg hc, if_neg hc] at h
      exact string_left_cancel h
  have hmid : natToString i = natToString j :=
    string_left_cancel (string_right_cancel hname)
  exact natToString_injective hmid

/-! ### Claim C1: the resolution cap -/

/-- Claim C1, counterexample: with `MAX_DIM = 0` the code disables the cap
and returns the source dimensions unchanged, so for a 100 × 100 source the
longest returned edge (100) exceeds the configured `MAX_DIM` (0), refuting
the claim as stated for every configured `MAX_DIM`. -/
theorem fit_cap_counterexample :
    ¬ (max (fit_within_max_dim 100 100 0).1 (fit_within_max_dim 100 100 0).2.1 ≤ 0) := by
  decide

/-- Claim C1 (amended): for nonnegative source dimensions,
`_fit_within_max_dim` always returns a scale factor at most 1 and
dimensions that never exceed the inputs; and whenever the configured
`MAX_DIM` is positive, the returned dimensions have longest edge at most
`MAX_DIM`. (When `MAX_DIM ≤ 0` the cap is disabled by the code.) -/
theorem fit_within_max_dim_correct (w h maxDim : ℤ) (hw : 0 ≤ w) (hh : 0 ≤ h) :
    (fit_within_max_dim w h maxDim).2.2 ≤ 1 ∧
    (fit_within_max_dim w h maxDim).1 ≤ w ∧
    (fit_within_max_dim w h maxDim).2.1 ≤ h ∧
    (0 < maxDim →
      max (fit_within_max_dim w h maxDim).1 (fit_within_max_dim w h maxDim).2.1 ≤ maxDim) := by
  simp only [fit_within_max_dim]
  split_ifs with h1 h2
  · exact ⟨le_refl 1, le_refl w, le_refl h, fun hm => absurd hm (by omega)⟩
  · exact ⟨le_refl 1, le_refl w, le_refl h, fun _ => h2⟩
  · have hM : maxDim < max w h := by omega
    have hMpos : (0 : ℤ) < max w h := by omega
    have hdpos : (0 : ℤ) < maxDim := by omega
    have hMQ : (0 : ℚ) < ((max w h : ℤ) : ℚ) := by exact_mod_cast hMpos
    have hdQ : (0 : ℚ) < ((maxDim : ℤ) : ℚ) := by exact_mod_cast hdpos
    set scale : ℚ := (maxDim : ℚ) / ((max w h : ℤ) : ℚ) with hscale
    have hscale_pos : 0 < scale := div_pos hdQ hMQ
    have hscale_lt1 : scale < 1 := by
      rw [hscale, div_lt_one hMQ]
      exact_mod_cast hM
    have hcancel : ((max w h : ℤ) : ℚ) * scale = (maxDim : ℚ) := by
      rw [hscale, mul_comm, div_mul_cancel₀ _ (ne_of_gt hMQ)]
    have key : ∀ d : ℤ, 0 ≤ d → d ≤ max w h →
        pyint ((d : ℚ) * scale) ≤ d ∧ pyint ((d : ℚ) * scale) ≤ maxDim := by
      intro d hd hdle
      have hdQ0 : (0 : ℚ) ≤ (d : ℚ) := by exact_mod_cast hd
      have hnonneg : (0 : ℚ) ≤ (d : ℚ) * scale := mul_nonneg hdQ0 hscale_pos.le
      have hfloor : pyint ((d : ℚ) * scale) = ⌊(d : ℚ) * scale⌋ := by
        rw [pyint, if_neg (not_lt.2 hnonneg)]
      constructor
      · have hle : (d : ℚ) * scale ≤ (d : ℚ) :=
          mul_le_of_le_one_right hdQ0 hscale_lt1.le
        have := Int.floor_le_floor hle
        rw [Int.floor_intCast] at this
        rw [hfloor]; exact this
      · have hle : (d : ℚ) * scale ≤ (maxDim : ℚ) := by
          calc (d : ℚ) * scale ≤ ((max w h : ℤ) : ℚ) * scale :=
                mul_le_mul_of_nonneg_right (by exact_mod_cast hdle) hscale_pos.le
            _ = (maxDim : ℚ) := hcancel
        have := Int.floor_le_floor hle
        rw [Int.floor_intCast] at this
        rw [hfloor]; exact this
    obtain ⟨hw1, hw2⟩ := key w hw (le_max_left w h)
    obtain ⟨hh1, hh2⟩ := key h hh (le_max_right w h)
    exact ⟨hscale_lt1.le, hw1, hh1, fun _ => max_le hw2 hh2⟩

/-- Witness for C1's amended theorem at the spec's own scenario,
a 1920 × 1080 source with `MAX_DIM = 720`. -/
theorem fit_within_max_dim_correct_witness :
    (0 : ℤ) ≤ 1920 ∧ (0 : ℤ) ≤ 1080 ∧
    ((fit_within_max_dim 1920 1080 720).2.2 ≤ 1 ∧
     (fit_within_max_dim 1920 1080 720).1 ≤ 1920 ∧
     (fit_within_max_dim 1920 1080 720).2.1 ≤ 1080 ∧
     (0 < (720 : ℤ) →
       max (fit_within_max_dim 1920 1080 720).1 (fit_within_max_dim 1920 1080 720).2.1 ≤ 720)) :=
  ⟨by decide, by decide, fit_within_max_dim_correct 1920 1080 720 (by decide) (by decide)⟩

/-! ### Claim C2: the output naming contract of `unique_video` -/

/-- Claim C2: for every copy count `n` with `1 ≤ n ≤ MAX_COPIES` and no
per-copy failure, `unique_video` returns exactly `n` paths in index order,
the `i`-th (0-based) being `output_dir` joined with
`{basename}_{i+1}.mp4`, and no two returned paths are equal. -/
theorem unique_video_output_contract (base_name output_dir : String) (maxCopies n : ℕ)
    (h1 : 1 ≤ n) (h2 : n ≤ maxCopies) :
    (unique_video base_name output_dir (n : ℤ)).length = n ∧
    (∀ i : ℕ, i < n →
      (unique_video base_name output_dir (n : ℤ))[i]? =
        some (pyJoin output_dir (base_name ++ "_" ++ natToString (i + 1) ++ ".mp4"))) ∧
    (unique_video base_name output_dir (n : ℤ)).Nodup := by
  unfold unique_video unique_video_calls
  rw [Int.toNat_natCast]
  refine ⟨by simp, ?_, ?_⟩
  · intro i hi
    simp [List.getElem?_map, List.getElem?_range hi, unique_once_path]
  · refine List.Nodup.map ?_ (List.Nodup.map ?_ (List.nodup_range n))
    · exact unique_once_path_injective base_name output_dir
    · intro a b hab
      simpa using hab

/-- Witness for C2 at `n = 3` copies of source basename `video` into
directory `out`. -/
theorem unique_video_output_contract_witness :
    1 ≤ 3 ∧ (3 : ℕ) ≤ 10 ∧
    (unique_video "video" "out" (3 : ℤ)).length = 3 ∧
    (unique_video "video" "out" (3 : ℤ))[1]? =
      some (pyJoin "out" ("video" ++ "_" ++ natToString 2 ++ ".mp4")) ∧
    (unique_video "video" "out" (3 : ℤ)).Nodup :=
  ⟨by decide, by decide,
    (unique_video_output_contract "video" "out" 10 3 (by decide) (by decide)).1,
    (unique_video_output_contract "video" "out" 10 3 (by decide) (by decide)).2.1 1 (by decide),
    (unique_video_output_contract "video" "out" 10 3 (by decide) (by decide)).2.2⟩

/-! ### Claim C10: nonpositive copy counts -/

/-- Claim C10: for every `copies ≤ 0`, `unique_video` returns the empty
list and performs no `_unique_once` invocation at all (the loop index
list is empty). -/
theorem unique_video_nonpos_copies (base_name output_dir : String) (copies : ℤ)
    (h : copies ≤ 0) :
    unique_video_calls copies = [] ∧ unique_video base_name output_dir copies = [] := by
  unfold unique_video unique_video_calls
  rw [Int.toNat_of_nonpos h]
  simp

/-- Witness for C10 at `copies = -2`. -/
theorem unique_video_nonpos_copies_witness :
    (-2 : ℤ) ≤ 0 ∧
    (unique_video_calls (-2) = [] ∧ unique_video "video" "out" (-2) = []) :=
  ⟨by decide, unique_video_nonpos_copies "video" "out" (-2) (by decide)⟩

/-! ### Claim C5: strength profiles and parameter sampling -/

theorem strength_params_cases (s : String) :
    strength_params s = lowProfile ∨ strength_params s = highProfile ∨
    strength_params s = mediumProfile := by
  simp only [strength_params]
  split_ifs <;> simp

theorem strength_params_default (s : String) (h1 : pyLower s ≠ "low")
    (h2 : pyLower s ≠ "high") : strength_params s = mediumProfile := by
  by_cases hs : s = ""
  · subst hs
    have hm : pyLower "medium" = "medium" := by decide
    have hl : ("medium" : String) ≠ "low" := by decide
    have hh : ("medium" : String) ≠ "high" := by decide
    simp [strength_params, hm, hl, hh]
  · simp [strength_params, hs, h1, h2]

theorem strength_params_wf (s : String) :
    (strength_params s).resize.lo ≤ (strength_params s).resize.hi ∧
    (strength_params s).speed.lo ≤ (strength_params s).speed.hi ∧
    (strength_params s).rotate.lo ≤ (strength_params s).rotate.hi ∧
    (strength_params s).density.lo ≤ (strength_params s).density.hi ∧
    (strength_params s).opacity.lo ≤ (strength_params s).opacity.hi ∧
    (strength_params s).bitrate.lo ≤ (strength_params s).bitrate.hi := by
  rcases strength_params_cases s with h | h | h <;> rw [h] <;>
    refine ⟨?_, ?_, ?_, ?_, ?_, ?_⟩ <;>
    norm_num [lowProfile, highProfile, mediumProfile]

theorem sample_mem (r : Rng) (u : ℚ) (hr : r.lo ≤ r.hi) (h0 : 0 ≤ u) (h1 : u < 1) :
    inRng r (sample r u) := by
  unfold inRng sample
  constructor
  · nlinarith [mul_nonneg h0 (sub_nonneg.2 hr)]
  · nlinarith [mul_le_of_le_one_left (sub_nonneg.2 hr) h1.le]

/-- Claim C5: for every strength name, each of the six sampled parameters
(resize, speed, rotation, density, opacity, bitrate multiplier) lies in
the declared `(min, max)` range of the selected profile, inclusive; and
every name whose lowercasing is neither `"low"` nor `"high"` (including
the empty string) selects the medium profile. -/
theorem strength_params_sampling (strength : String) (u1 u2 u3 u4 u5 u6 : ℚ)
    (h1 : 0 ≤ u1 ∧ u1 < 1) (h2 : 0 ≤ u2 ∧ u2 < 1) (h3 : 0 ≤ u3 ∧ u3 < 1)
    (h4 : 0 ≤ u4 ∧ u4 < 1) (h5 : 0 ≤ u5 ∧ u5 < 1) (h6 : 0 ≤ u6 ∧ u6 < 1) :
    inRng (strength_params strength).resize (sample (strength_params strength).resize u1) ∧
    inRng (strength_params strength).speed (sample (strength_params strength).speed u2) ∧
    inRng (strength_params strength).rotate (sample (strength_params strength).rotate u3) ∧
    inRng (strength_params strength).density (sample (strength_params strength).density u4) ∧
    inRng (strength_params strength).opacity (sample (strength_params strength).opacity u5) ∧
    inRng (strength_params strength).bitrate (sample (strength_params strength).bitrate u6) ∧
    (pyLower strength ≠ "low" → pyLower strength ≠ "high" →
      strength_params strength = mediumProfile) := by
  obtain ⟨w1, w2, w3, w4, w5, w6⟩ := strength_params_wf strength
  exact ⟨sample_mem _ _ w1 h1.1 h1.2, sample_mem _ _ w2 h2.1 h2.2,
    sample_mem _ _ w3 h3.1 h3.2, sample_mem _ _ w4 h4.1 h4.2,
    sample_mem _ _ w5 h5.1 h5.2, sample_mem _ _ w6 h6.1 h6.2,
    fun ha hb => strength_params_default strength ha hb⟩

/-- Witness for C5 at the unrecognized strength name `"custom"` with all
unit draws equal to 0. -/
theorem strength_params_sampling_witness :
    ((0 : ℚ) ≤ 0 ∧ (0 : ℚ) < 1) ∧
    (inRng (strength_params "custom").resize (sample (strength_params "custom").resize 0) ∧
     inRng (strength_params "custom").speed (sample (strength_params "custom").speed 0) ∧
     inRng (strength_params "custom").rotate (sample (strength_params "custom").rotate 0) ∧
     inRng (strength_params "custom").density (sample (strength_params "custom").density 0) ∧
     inRng (strength_params "custom").opacity (sample (strength_params "custom").opacity 0) ∧
     inRng (strength_params "custom").bitrate (sample (strength_params "custom").bitrate 0) ∧
     (pyLower "custom" ≠ "low" → pyLower "custom" ≠ "high" →
       strength_params "custom" = mediumProfile)) :=
  ⟨⟨le_refl 0, zero_lt_one⟩,
   strength_params_sampling "custom" 0 0 0 0 0 0
     ⟨le_refl 0, zero_lt_one⟩ ⟨le_refl 0, zero_lt_one⟩ ⟨le_refl 0, zero_lt_one⟩
     ⟨le_refl 0, zero_lt_one⟩ ⟨le_refl 0, zero_lt_one⟩ ⟨le_refl 0, zero_lt_one⟩⟩

/-! ### Claim C7: rectangle overlay geometry -/

/-- Admissible width/height draw for the rectangle overlay
(video_unique.py line 103-104): `np.random.randint(50, max(51, dim // 2))`
yields a value in `[50, max(51, dim / 2))`. -/
def rect_size_ok (dim draw : ℕ) : Prop := 50 ≤ draw ∧ draw < max 51 (dim / 2)

/-- Admissible top-left position draw for the rectangle overlay
(video_unique.py lines 110-111): `np.random.randint(0, max(1, dim - draw))`
yields a value in `[0, max(1, dim - draw))` (Python's negative
`dim - draw` and the truncated ℕ subtraction agree under the `max 1`). -/
def rect_pos_ok (dim draw pos : ℕ) : Prop := pos < max 1 (dim - draw)

/-- Claim C7, counterexample: on a 10 × 10 frame the only admissible
width/height draw is 50 and the only admissible position is (0, 0), and
the rectangle then extends past the frame (0 + 50 > 10), refuting the
containment part of the claim as stated for every source frame. -/
theorem rect_overlay_counterexample :
    rect_size_ok 10 50 ∧ rect_size_ok 10 50 ∧ rect_pos_ok 10 50 0 ∧ rect_pos_ok 10 50 0 ∧
    ¬ (0 + 50 ≤ 10) := by
  unfold rect_size_ok rect_pos_ok
  decide

theorem rect_dim_inside (dim draw pos : ℕ) (hdim : 50 ≤ dim)
    (hs : rect_size_ok dim draw) (hp : rect_pos_ok dim draw pos) : pos + draw ≤ dim := by
  unfold rect_size_ok at hs
  unfold rect_pos_ok at hp
  omega

/-- Claim C7 (amended): on frames whose width and height are both at
least 50, every admissible rectangle draw has width/height in
`[50, max(51, dim / 2))` and its sampled position places the rectangle
entirely inside the frame. -/
theorem rect_overlay_inside (W H wD hD xD yD : ℕ) (hW : 50 ≤ W) (hH : 50 ≤ H)
    (hw : rect_size_ok W wD) (hh : rect_size_ok H hD)
    (hx : rect_pos_ok W wD xD) (hy : rect_pos_ok H hD yD) :
    (50 ≤ wD ∧ wD < max 51 (W / 2)) ∧ (50 ≤ hD ∧ hD < max 51 (H / 2)) ∧
    xD + wD ≤ W ∧ yD + hD ≤ H :=
  ⟨hw, hh, rect_dim_inside W wD xD hW hw hx, rect_dim_inside H hD yD hH hh hy⟩

/-- Witness for C7's amended theorem on a 720 × 480 frame with a 100 × 80
rectangle drawn at position (13, 7). -/
theorem rect_overlay_inside_witness :
    50 ≤ 720 ∧ 50 ≤ 480 ∧
    ((50 ≤ 100 ∧ 100 < max 51 (720 / 2)) ∧ (50 ≤ 80 ∧ 80 < max 51 (480 / 2)) ∧
     13 + 100 ≤ 720 ∧ 7 + 80 ≤ 480) :=
  ⟨by decide, by decide,
   rect_overlay_inside 720 480 100 80 13 7 (by decide) (by decide)
     ⟨by decide, by decide⟩ ⟨by decide, by decide⟩
     ((by decide : 13 < max 1 (720 - 100)) : rect_pos_ok 720 100 13)
     ((by decide : 7 < max 1 (480 - 80)) : rect_pos_ok 480 80 7)⟩

/-! ### The one-copy pipeline `_unique_once` (claims C6 and C9) -/

/-- One video transform applied through `clip.fx` in `_unique_once`. -/
inductive Fx where
  | resizeFx (factor : ℚ)
  | speedFx (factor : ℚ)
  | rotateFx (degrees : ℚ)
deriving DecidableEq

/-- One audio transform applied through `audio.fx` in `_unique_once`. -/
inductive AFx where
  | volumeFx (factor : ℚ)
deriving DecidableEq

/-- Decimal string of an integer (Python `str(i)`). -/
def intToString (i : ℤ) : String :=
  if i < 0 then "-" ++ natToString i.natAbs else natToString i.natAbs

/-- Observable outcome of one `_unique_once` call: the ordered transform
traces, the encoder arguments of `write_videofile` (video_unique.py
lines 184-192) and the output path. -/
structure UniqueOnceResult where
  videoOps : List Fx
  audioOps : List AFx
  bitrate : ℤ
  bitrateStr : String
  fps : ℕ
  codec : String
  audioCodec : String
  outputPath : String
deriving DecidableEq

/-- Embedding of `_unique_once` (video_unique.py lines 54-194).
`uResize uSpeed uRotate uBitrate` are the unit draws behind the four
`np.random.uniform` calls; `w h` are the video's dimensions as read at
the cap step (line 75, after the resize/speed/rotate transforms);
`readerBitrate` is `video.reader.bitrate` (`none` for a missing/`None`
value) and `readerRaises` tells whether reading it raised. -/
def unique_once (base_name output_dir : String) (index : ℕ) (strength : String)
    (uResize uSpeed uRotate uBitrate : ℚ) (w h maxDim : ℤ)
    (readerBitrate : Option ℤ) (readerRaises : Bool) : UniqueOnceResult :=
  let P := strength_params strength
  let resize_factor := sample P.resize uResize
  let speed_factor := sample P.speed uSpeed
  let rotation_angle := sample P.rotate uRotate
  let scale_cap := (fit_within_max_dim w h maxDim).2.2
  let original_bitrate : ℤ :=
    if readerRaises then 3000
    else match readerBitrate with
      | none => 3000
      | some b => if b = 0 then 3000 else b
  let bitrate := pyint ((original_bitrate : ℚ) * sample P.bitrate uBitrate)
  { videoOps :=
      [Fx.resizeFx resize_factor, Fx.speedFx speed_factor, Fx.rotateFx rotation_angle] ++
      (if scale_cap < 1 then [Fx.resizeFx scale_cap] else [])
    audioOps := [AFx.volumeFx speed_factor]
    bitrate := bitrate
    bitrateStr := intToString bitrate ++ "k"
    fps := 24
    codec := "libx264"
    audioCodec := "aac"
    outputPath := unique_once_path base_name output_dir index }

/-- Source bitrate with default, as the spec words it: the source
container bitrate, or 3000 if the bitrate is unreadable or absent
(Python falsiness makes a reported 0 count as absent). -/
def sourceBitrateOrDefault (readerBitrate : Option ℤ) (unreadable : Bool) : ℤ :=
  if unreadable then 3000
  else match readerBitrate with
    | none => 3000
    | some b => if b = 0 then 3000 else b

/-- Claim C6: the one-copy pipeline applies, in order, resize by the
sampled factor, speed change by the sampled factor, rotation by the
sampled angle, and scales the audio volume by the very same sampled
speed factor; only after these does the conditional cap downscale
(applied exactly when the cap scale is < 1) appear. -/
theorem unique_once_transform_order (base_name output_dir : String) (index : ℕ)
    (strength : String) (uResize uSpeed uRotate uBitrate : ℚ) (w h maxDim : ℤ)
    (readerBitrate : Option ℤ) (readerRaises : Bool) :
    (unique_once base_name output_dir index strength uResize uSpeed uRotate uBitrate
        w h maxDim readerBitrate readerRaises).videoOps =
      [Fx.resizeFx (sample (strength_params strength).resize uResize),
       Fx.speedFx (sample (strength_params strength).speed uSpeed),
       Fx.rotateFx (sample (strength_params strength).rotate uRotate)] ++
      (if (fit_within_max_dim w h maxDim).2.2 < 1 then
        [Fx.resizeFx (fit_within_max_dim w h maxDim).2.2] else []) ∧
    (unique_once base_name output_dir index strength uResize uSpeed uRotate uBitrate
        w h maxDim readerBitrate readerRaises).audioOps =
      [AFx.volumeFx (sample (strength_params strength).speed uSpeed)] :=
  ⟨rfl, rfl⟩

/-- Claim C9: the target bitrate equals the source container bitrate
(3000 when unreadable or absent) times the sampled multiplier, truncated
to an integer; it is passed to the encoder in kilobits (the `"k"` suffix)
and the output frame rate is the fixed constant 24. -/
theorem unique_once_encoder_settings (base_name output_dir : String) (index : ℕ)
    (strength : String) (uResize uSpeed uRotate uBitrate : ℚ) (w h maxDim : ℤ)
    (readerBitrate : Option ℤ) (readerRaises : Bool) :
    (unique_once base_name output_dir index strength uResize uSpeed uRotate uBitrate
        w h maxDim readerBitrate readerRaises).bitrate =
      pyint ((sourceBitrateOrDefault readerBitrate readerRaises : ℚ) *
        sample (strength_params strength).bitrate uBitrate) ∧
    (unique_once base_name output_dir index strength uResize uSpeed uRotate uBitrate
        w h maxDim readerBitrate readerRaises).bitrateStr =
      intToString (unique_once base_name output_dir index strength uResize uSpeed uRotate
        uBitrate w h maxDim readerBitrate readerRaises).bitrate ++ "k" ∧
    (unique_once base_name output_dir index strength uResize uSpeed uRotate uBitrate
        w h maxDim readerBitrate readerRaises).fps = 24 :=
  ⟨rfl, rfl, rfl⟩

/-! ### Claim C8: progress-callback failures are swallowed -/

/-- One iteration of the `unique_video` loop, threading the possibility
of a propagating exception (`Except.error`): the copy is produced, then
`progress_cb` is invoked inside `try ... except Exception: pass`
(video_unique.py lines 226-230), so a callback failure is dropped. -/
def cbStep (base_name output_dir : String) (cb : ℕ → String → Except Unit Unit)
    (acc : Except Unit (List String)) (i : ℕ) : Except Unit (List String) :=
  match acc with
  | .error e => .error e
  | .ok outs =>
      match cb i (unique_once_path base_name output_dir i) with
      | .ok _ => .ok (outs ++ [unique_once_path base_name output_dir i])
      | .error _ => .ok (outs ++ [unique_once_path base_name output_dir i])

/-- The `unique_video` loop with a (possibly failing) progress callback. -/
def unique_video_with_cb (base_name output_dir : String) (copies : ℤ)
    (cb : ℕ → String → Except Unit Unit) : Except Unit (List String) :=
  (unique_video_calls copies).foldl (cbStep base_name output_dir cb) (.ok [])

theorem foldl_cbStep (base_name output_dir : String) (cb : ℕ → String → Except Unit Unit)
    (l : List ℕ) (acc : List String) :
    l.foldl (cbStep base_name output_dir cb) (.ok acc) =
      .ok (acc ++ l.map (unique_once_path base_name output_dir)) := by
  induction l generalizing acc with
  | nil => simp
  | cons x xs ih =>
      rw [List.foldl_cons]
      have hstep : cbStep base_name output_dir cb (.ok acc) x =
          .ok (acc ++ [unique_once_path base_name output_dir x]) := by
        unfold cbStep
        cases cb x (unique_once_path base_name output_dir x) <;> rfl
      rw [hstep, ih]
      simp

/-- Claim C8: whatever subset of its invocations the progress callback
fails on, the loop completes all copies, never propagates the failure,
and returns exactly the paths it would return with no callback. -/
theorem unique_video_callback_immune (base_name output_dir : String) (copies : ℤ)
    (cb : ℕ → String → Except Unit Unit) :
    unique_video_with_cb base_name output_dir copies cb =
      Except.ok (unique_video base_name output_dir copies) := by
  unfold unique_video_with_cb unique_video
  rw [foldl_cbStep]
  simp

/-! ### Claim C4: per-job cleanup in `process_and_send` (bot.py) -/

/-- Failure oracle for one job: whether `unique_video` raises, whether
`os.remove(input_path)` raises, and whether `shutil.rmtree` fails
internally (its errors are ignored via `ignore_errors=True`). -/
structure CleanupEnv where
  encodeRaises : Bool
  removeRaises : Bool
  rmtreeFails : Bool
deriving DecidableEq

/-- The filesystem state a job touches: its source temp file and its
working directory. -/
structure JobFS where
  inputPresent : Bool
  workdirPresent : Bool
deriving DecidableEq

/-- Sequencing of two Python statements: the second runs only when the
first did not raise. -/
def pseq (a : JobFS × Option Unit) (f : JobFS → JobFS × Option Unit) :
    JobFS × Option Unit :=
  match a with
  | (fs, none) => f fs
  | (fs, some e) => (fs, some e)

/-- A statement wrapped in `try: ... except Exception: pass` (bot.py
lines 99-107): any exception is swallowed. -/
def pyTry (body : JobFS → JobFS × Option Unit) (fs : JobFS) : JobFS × Option Unit :=
  ((body fs).1, none)

/-- Embedding of `if os.path.exists(input_path): os.remove(input_path)`
(bot.py lines 100-101): removal happens only when the file exists and
only when `os.remove` does not raise. -/
def removeInput (env : CleanupEnv) (fs : JobFS) : JobFS × Option Unit :=
  if fs.inputPresent then
    if env.removeRaises then (fs, some ()) else ({ fs with inputPresent := false }, none)
  else (fs, none)

/-- Embedding of `shutil.rmtree(workdir, ignore_errors=True)` (bot.py
line 105): never raises; on internal failure the directory may remain. -/
def rmtreeWorkdir (env : CleanupEnv) (fs : JobFS) : JobFS × Option Unit :=
  (if env.rmtreeFails then fs else { fs with workdirPresent := false }, none)

/-- The `finally` block of `process_and_send`: both cleanup statements,
each inside its own `try ... except Exception: pass`. -/
def cleanupPhase (env : CleanupEnv) (fs : JobFS) : JobFS × Option Unit :=
  pseq (pyTry (removeInput env) fs) (pyTry (rmtreeWorkdir env))

/-- The guarded body of `process_and_send`: the `unique_video` call in
the worker thread (message sending is modelled as pure). -/
def encodePhase (env : CleanupEnv) (fs : JobFS) : JobFS × Option Unit :=
  (fs, if env.encodeRaises then some () else none)

/-- Embedding of `process_and_send` (bot.py lines 73-107): create the
working directory, run the encode phase under
`try: ... except Exception: notify`, then run the cleanup `finally`
block. -/
def process_and_send (env : CleanupEnv) (fs0 : JobFS) : JobFS × Option Unit :=
  let fs1 := { fs0 with workdirPresent := true }
  let handled : JobFS × Option Unit :=
    match encodePhase env fs1 with
    | (fs, none) => (fs, none)
    | (fs, some _) => (fs, none)
  pseq handled (cleanupPhase env)

/-- Claim C4: whether or not the `unique_video` call raises,
`process_and_send` never lets an exception out of its cleanup (the
returned exception slot is `none`), and whenever the cleanup primitives
themselves succeed, both the source temp file and the working directory
are gone on return. -/
theorem process_and_send_cleanup (env : CleanupEnv) (fs0 : JobFS) :
    (process_and_send env fs0).2 = none ∧
    (env.removeRaises = false → env.rmtreeFails = false →
      (process_and_send env fs0).1.inputPresent = false ∧
      (process_and_send env fs0).1.workdirPresent = false) := by
  obtain ⟨e, r, t⟩ := env
  obtain ⟨ip, wp⟩ := fs0
  cases e <;> cases r <;> cases t <;> cases ip <;> cases wp <;>
    simp [process_and_send, encodePhase, cleanupPhase, pseq, pyTry,
      removeInput, rmtreeWorkdir]

/-- Witness for C4 on a job whose encode raises but whose cleanup
primitives succeed: no exception escapes and both artifacts are removed. -/
theorem process_and_send_cleanup_witness :
    (process_and_send ⟨true, false, false⟩ ⟨true, false⟩).2 = none ∧
    (process_and_send ⟨true, false, false⟩ ⟨true, false⟩).1.inputPresent = false ∧
    (process_and_send ⟨true, false, false⟩ ⟨true, false⟩).1.workdirPresent = false :=
  ⟨(process_and_send_cleanup ⟨true, false, false⟩ ⟨true, false⟩).1,
   (process_and_send_cleanup ⟨true, false, false⟩ ⟨true, false⟩).2 rfl rfl⟩

/-! ### Claim C3: the encode-phase concurrency bound (bot.py `SEM`) -/

/-- Lifecycle phase of one job in `process_and_send`: `rendering` is the
region inside `async with SEM` (bot.py lines 80-82), entered only by
acquiring the semaphore and left when the encode finishes. -/
inductive Phase where
  | queued
  | rendering
  | delivering
  | cleaned
deriving DecidableEq

/-- Number of jobs currently inside their encode phase. -/
def countRendering (s : Multiset Phase) : ℕ := Multiset.count Phase.rendering s

/-- Transition relation of the job system under `SEM =
asyncio.Semaphore(workers)`: a queued job may start rendering only while
fewer than `workers` jobs hold the semaphore; finishing the encode
releases the slot (the `async with` block ends before delivery). -/
inductive JobStep (workers : ℕ) : Multiset Phase → Multiset Phase → Prop where
  | acquire (rest : Multiset Phase) (h : countRendering rest < workers) :
      JobStep workers (Phase.queued ::ₘ rest) (Phase.rendering ::ₘ rest)
  | release (rest : Multiset Phase) :
      JobStep workers (Phase.rendering ::ₘ rest) (Phase.delivering ::ₘ rest)
  | finish (rest : Multiset Phase) :
      JobStep workers (Phase.delivering ::ₘ rest) (Phase.cleaned ::ₘ rest)

/-- Reachability from a batch of simultaneously submitted (queued) jobs. -/
inductive JobReach (workers : ℕ) (init : Multiset Phase) : Multiset Phase → Prop where
  | refl : JobReach workers init init
  | step (s t : Multiset Phase) :
      JobReach workers init s → JobStep workers s t → JobReach workers init t

/-- Claim C3: starting from any number of simultaneously submitted jobs,
at most `workers` (the semaphore size) jobs are in their encode phase in
every reachable state. -/
theorem semaphore_bounds_rendering (workers n : ℕ) (s : Multiset Phase)
    (h : JobReach workers (Multiset.replicate n Phase.queued) s) :
    countRendering s ≤ workers := by
  induction h with
  | refl => simp [countRendering, Multiset.count_replicate]
  | step s t hr hs ih =>
      cases hs with
      | acquire rest hlt =>
          have : countRendering (Phase.rendering ::ₘ rest) = countRendering rest + 1 := by
            simp [countRendering, Multiset.count_cons_self]
          omega
      | release rest =>
          have h1 : countRendering (Phase.rendering ::ₘ rest) = countRendering rest + 1 := by
            simp [countRendering, Multiset.count_cons_self]
          have h2 : countRendering (Phase.delivering ::ₘ rest) = countRendering rest := by
            simp [countRendering,
              Multiset.count_cons_of_ne (by decide : Phase.rendering ≠ Phase.delivering)]
          omega
      | finish rest =>
          have h1 : countRendering (Phase.delivering ::ₘ rest) = countRendering rest := by
            simp [countRendering,
              Multiset.count_cons_of_ne (by decide : Phase.rendering ≠ Phase.delivering)]
          have h2 : countRendering (Phase.cleaned ::ₘ rest) = countRendering rest := by
            simp [countRendering,
              Multiset.count_cons_of_ne (by decide : Phase.rendering ≠ Phase.cleaned)]
          omega

/-- Witness for C3: three jobs submitted with `WORKERS = 2`; after two of
them acquire the semaphore, the rendering count is within the bound. -/
theorem semaphore_bounds_rendering_witness :
    countRendering (Phase.rendering ::ₘ Phase.rendering ::ₘ Multiset.replicate 1 Phase.queued) ≤ 2 := by
  apply semaphore_bounds_rendering 2 3
  have s1 : JobReach 2 (Multiset.replicate 3 Phase.queued)
      (Phase.rendering ::ₘ Phase.queued ::ₘ Multiset.replicate 1 Phase.queued) := by
    have h0 : Multiset.replicate 3 Phase.queued
        = Phase.queued ::ₘ Phase.queued ::ₘ Multiset.replicate 1 Phase.queued := rfl
    rw [h0]
    exact JobReach.step _ _ JobReach.refl
      (JobStep.acquire (Phase.queued ::ₘ Multiset.replicate 1 Phase.queued)
        (by simp [countRendering, Multiset.count_replicate]))
  rw [Multiset.cons_swap] at s1
  exact JobReach.step _ _ s1
    (JobStep.acquire (Phase.rendering ::ₘ Multiset.replicate 1 Phase.queued)
      (by simp [countRendering, Multiset.count_cons_self, Multiset.count_replicate]))

end UniqVideo
